import Mathlib

/-!
# Verification of the llamacpp gateway's fleet manager and proxy core

Shallow embedding of the Go sources (`internal/process/manager.go`,
`internal/api/handler.go`, `internal/config/config.go`) of the
`llamacppgateway` repository, together with theorems settling the frozen
claims about capacity/eviction, port allocation, restart supervision,
queueing, HTTP status mapping, readiness probing, shutdown, model-name
resolution, and API-key masking.

Modelling conventions:
* Go machine integers become `Nat`/`Int` (no overflow is reachable on the
  quantities involved: ports, lengths, counters stay tiny).
* `time.Time` timestamps become `Nat` (monotone clock readings); the
  shutdown drain models one `time.Sleep(1 * time.Second)` as one clock unit.
* The Go map `backends map[string]*modelBackends` becomes an
  insertion-ordered association list; Go map iteration order is
  unspecified, the list order stands for one admissible iteration order.
* Byte strings handled by slicing (`maskAPIKey`) become `List Nat` of bytes.
* Fallible Go functions returning `error` become `Except String _`.
-/

namespace Gateway

/-- Backend lifecycle state (manager.go `BackendState`:
`StateStopped | StateStarting | StateReady | StateFailed`). -/
inductive BackendState
  | stopped
  | starting
  | ready
  | failed
deriving DecidableEq, Repr

/-- The slice of `config.ModelConfig` (config.go) the manager core reads:
name, aliases, instance count and the per-model request timeout. -/
structure ModelConfig where
  name : String
  aliases : List String
  instances : Nat
  timeoutSec : Nat
deriving DecidableEq, Repr

/-- `config.QueueConfig` (config.go). -/
structure QueueConfig where
  enabled : Bool
  maxSize : Nat
  timeoutSec : Nat
deriving DecidableEq, Repr

/-- The slice of `config.Config` (config.go) used by the manager and
handler: model list, queue settings, port range start and capacity. -/
structure Config where
  models : List ModelConfig
  queue : QueueConfig
  portRangeStart : Nat
  maxLoadedModels : Nat
deriving DecidableEq, Repr

/-- One backend process record (manager.go `Backend`).  The Go struct holds
`Model`, `Port`, `State`, `Process`, `LastUsed`, `cancel`, `ActiveReqs`,
`instanceIdx`; the process/cancel handles are irrelevant to state
evolution and are dropped.  Note the source struct has **no** restart
counter field. -/
structure Backend where
  modelName : String
  port : Nat
  state : BackendState
  lastUsed : Nat
  activeReqs : Int
  instanceIdx : Nat
deriving DecidableEq, Repr

/-- `modelBackends` (manager.go): the backends of one model plus the
round-robin cursor. -/
structure ModelBackends where
  backends : List Backend
  rrIdx : Nat
deriving DecidableEq, Repr

/-- The mutable manager state the claims touch (manager.go `Manager`):
the model-name-indexed backend groups, the next port counter and the
capacity bound.  The Go map is modelled as an association list in
insertion order. -/
structure ManagerState where
  backends : List (String × ModelBackends)
  nextPort : Nat
  maxLoaded : Nat
deriving DecidableEq, Repr

/-- All backends of all groups, in group order (the flattened iteration
`for name, mb := range m.backends; for _, b := range mb.backends`). -/
def ManagerState.allBackends (s : ManagerState) : List Backend :=
  s.backends.flatMap (fun p => p.2.backends)

/-- The same flattened iteration keeping the group name of each backend. -/
def ManagerState.allNamedBackends (s : ManagerState) : List (String × Backend) :=
  s.backends.flatMap (fun p => p.2.backends.map (fun b => (p.1, b)))

/-! ## Model-name resolution (handler.go / config.go) -/

/-- `Config.ResolveAlias` (config.go lines 183-195): scan models in order;
for each model, return its name if the requested string equals the name
or any alias of *that* model.  Go returns `""` for no match; `Option`
models that. -/
def ResolveAlias (models : List ModelConfig) (requested : String) : Option String :=
  models.findSome? (fun m =>
    if m.name = requested ∨ requested ∈ m.aliases then some m.name else none)

/-- `strings.Contains`: does `needle` occur as a contiguous run in `hay`?
(The empty needle occurs everywhere, as in Go.) -/
def listContains (hay needle : List Char) : Bool :=
  match hay with
  | [] => needle = []
  | _ :: t => needle.isPrefixOf hay || listContains t needle

/-- Case-insensitive substring test, `strings.Contains(strings.ToLower hay,
strings.ToLower needle)` specialised to how `resolveModelName` calls it;
lower-casing is applied character-wise. -/
def containsLower (hay needle : String) : Bool :=
  listContains (hay.toList.map Char.toLower) (needle.toList.map Char.toLower)

/-- `resolveModelName` (handler.go lines 467-493): exact name match, then
alias match, then case-insensitive substring match of the requested
string inside a configured name. -/
def resolveModelName (requested : String) (models : List ModelConfig) : Option String :=
  match models.find? (fun m => m.name = requested) with
  | some m => some m.name
  | none =>
    match models.findSome? (fun m =>
        if requested ∈ m.aliases then some m.name else none) with
    | some n => some n
    | none =>
      match models.find? (fun m => containsLower m.name requested) with
      | some m => some m.name
      | none => none

/-- The combined resolution the handler performs (handler.go lines
148-157): `cfg.ResolveAlias` first, and only when it found nothing,
`resolveModelName` as fallback. -/
def resolveModel (models : List ModelConfig) (requested : String) : Option String :=
  match ResolveAlias models requested with
  | some n => some n
  | none => resolveModelName requested models

/-! ## API-key masking (handler.go lines 455-463)

Go slices strings by bytes; an API key is modelled as its byte list.
`'*' = 42`, `'.' = 46`. -/

/-- `maskAPIKey` (handler.go): empty stays empty, a key of at most 12
bytes becomes `"***"`, a longer key becomes its first 8 bytes, `"..."`,
and its last 4 bytes. -/
def maskAPIKey (key : List Nat) : List Nat :=
  if key = [] then []
  else if key.length ≤ 12 then [42, 42, 42]
  else key.take 8 ++ [46, 46, 46] ++ key.drop (key.length - 4)

/-! ## Capacity and LRU eviction (manager.go lines 500-557) -/

/-- Does a backend count against the capacity bound?  `evictIfNeeded`
counts backends with `State == StateReady || State == StateStarting`. -/
def countsLoaded (b : Backend) : Bool :=
  b.state = .ready || b.state = .starting

/-- The `loaded` count computed at the top of `evictIfNeeded`. -/
def loadedCount (s : ManagerState) : Nat :=
  (s.allBackends.filter countsLoaded).length

/-- Does a backend qualify as an eviction candidate?  `evictIfNeeded`
skips backends that are not Ready and backends with
`GetActiveReqs() > 0`. -/
def evictable (b : Backend) : Bool :=
  b.state = .ready && !(b.activeReqs > 0)

/-- One step of `evictIfNeeded`'s LRU scan: the running `(lruName,
lruTime)` pair is replaced when it is still unset or when the candidate's
`LastUsed` is strictly before it. -/
def evictScan (acc : Option (String × Nat)) (nb : String × Backend) :
    Option (String × Nat) :=
  if evictable nb.2 then
    match acc with
    | none => some (nb.1, nb.2.lastUsed)
    | some (_, t) => if nb.2.lastUsed < t then some (nb.1, nb.2.lastUsed) else acc
  else acc

/-- The LRU scan of `evictIfNeeded` (manager.go lines 514-530) over the
flattened backend iteration. -/
def findLRU (s : ManagerState) : Option (String × Nat) :=
  s.allNamedBackends.foldl evictScan none

/-- `stopModel` (manager.go lines 540-557): cancel and mark Stopped every
backend of the named group, then delete the group from the map.  Nothing
is done to `nextPort` and no port is recorded anywhere: the Go code has
no port freelist. -/
def stopModel (s : ManagerState) (name : String) : ManagerState :=
  { s with backends := s.backends.filter (fun p => p.1 ≠ name) }

/-- `evictIfNeeded` (manager.go lines 500-538): below capacity, do
nothing; otherwise evict the whole model group of the LRU evictable
backend, or fail with the no-evictable error. -/
def evictIfNeeded (s : ManagerState) : Except String ManagerState :=
  if loadedCount s < s.maxLoaded then .ok s
  else
    match findLRU s with
    | none => .error "no evictable models found (all busy or starting)"
    | some (name, _) => .ok (stopModel s name)

/-! ## The cold-start path of `EnsureModel` (manager.go lines 200-254) -/

/-- Outcome of `EnsureModel`'s cold-start path (the model is not present
in `m.backends`): either new Starting backends were created, or the call
fell through to the queue, or it failed. -/
inductive EnsureOutcome
  | started (s : ManagerState) (created : List Backend)
  | enqueuedOutcome (s : ManagerState)
  | failedOutcome (msg : String)
deriving DecidableEq, Repr

/-- The cold-start path of `EnsureModel` for a model that is not loaded:
look up the model config; run `evictIfNeeded` (on error: queue when
enabled, else fail); then allocate `instances` consecutive ports from
`nextPort` and insert that many Starting backends as a new group.
`now` is the `time.Now()` reading used for `LastUsed`.  The Go map
assignment `m.backends[modelName] = mb` is modelled as an append of a
new entry; the two coincide whenever `modelName` is not already a key,
which is how this path is reached (the early-return loops handle any
group with a Ready or Starting backend). -/
def ensureModelStart (cfg : Config) (s : ManagerState) (modelName : String)
    (now : Nat) : EnsureOutcome :=
  match cfg.models.find? (fun m => m.name = modelName) with
  | none => .failedOutcome ("model " ++ modelName ++ " not found in config")
  | some mc =>
    match evictIfNeeded s with
    | .error e =>
      if cfg.queue.enabled then .enqueuedOutcome s
      else .failedOutcome ("eviction failed: " ++ e)
    | .ok s₁ =>
      let instances := if mc.instances < 1 then 1 else mc.instances
      let created := (List.range instances).map (fun i =>
        { modelName := modelName
          port := s₁.nextPort + i
          state := .starting
          lastUsed := now
          activeReqs := 0
          instanceIdx := i : Backend })
      .started
        { s₁ with
          nextPort := s₁.nextPort + instances
          backends := s₁.backends ++ [(modelName, ⟨created, 0⟩)] }
        created

/-! ## Request queue (manager.go lines 412-494) -/

/-- A queued waiter (manager.go `QueueEntry`).  The one-shot delivery
channels are modelled by the drain result pairing entries with backends;
`tag` stands for the entry's identity (Go pointer identity). -/
structure QueueEntry where
  modelName : String
  tag : Nat
deriving DecidableEq, Repr

/-- The admission part of `enqueue` (manager.go lines 412-431): disabled
queue fails, a queue already holding `MaxSize` entries fails fast with
the distinct queue-full error, otherwise the entry is appended at the
tail. -/
def enqueueStep (cfg : Config) (q : List QueueEntry) (e : QueueEntry) :
    Except String (List QueueEntry) :=
  if ¬ cfg.queue.enabled then
    .error "all model slots full and queuing is disabled"
  else if cfg.queue.maxSize ≤ q.length then
    .error ("request queue is full (" ++ toString q.length ++ "/"
      ++ toString cfg.queue.maxSize ++ ")")
  else
    .ok (q ++ [e])

/-- `getReadyBackends`'s first element: `drainQueue` hands every drained
waiter `ready[0]`, the first Ready backend in group order. -/
def firstReady (mb : ModelBackends) : Option Backend :=
  mb.backends.find? (fun b => b.state = .ready)

/-- Set `LastUsed := now` on the first Ready backend of a group, leaving
everything else in place (the `chosen.LastUsed = time.Now()` write inside
`drainQueue`). -/
def touchFirstReady (l : List Backend) (now : Nat) : List Backend :=
  match l with
  | [] => []
  | b :: rest =>
    if b.state = .ready then { b with lastUsed := now } :: rest
    else b :: touchFirstReady rest now

/-- Group lookup `m.backends[modelName]`. -/
def lookupGroup (s : ManagerState) (name : String) : Option ModelBackends :=
  (s.backends.find? (fun p => p.1 = name)).map (fun p => p.2)

/-- Replace the named group's backend list (used by the drain's
`LastUsed` write). -/
def touchGroup (s : ManagerState) (name : String) (now : Nat) : ManagerState :=
  { s with backends := s.backends.map (fun p =>
      if p.1 = name then (p.1, { p.2 with backends := touchFirstReady p.2.backends now })
      else p) }

/-- `drainQueue` (manager.go lines 464-487): walk the queue front to
back; an entry for `modelName` whose group currently has a Ready backend
is delivered that group's first Ready backend (with `LastUsed` freshly
set) and dropped from the queue; every other entry is kept in order.
Returns the state after the `LastUsed` writes, the remaining queue, and
the deliveries in the order they were made. -/
def drainQueue (s : ManagerState) (q : List QueueEntry) (modelName : String)
    (now : Nat) : ManagerState × List QueueEntry × List (QueueEntry × Backend) :=
  match q with
  | [] => (s, [], [])
  | e :: rest =>
    if e.modelName = modelName then
      match lookupGroup s modelName with
      | some mb =>
        match firstReady mb with
        | some b =>
          let s' := touchGroup s modelName now
          let r := drainQueue s' rest modelName now
          (r.1, r.2.1, (e, { b with lastUsed := now }) :: r.2.2)
        | none =>
          let r := drainQueue s rest modelName now
          (r.1, e :: r.2.1, r.2.2)
      | none =>
        let r := drainQueue s rest modelName now
        (r.1, e :: r.2.1, r.2.2)
    else
      let r := drainQueue s rest modelName now
      (r.1, e :: r.2.1, r.2.2)

/-! ## Crash supervision (manager.go lines 330-364)

The goroutine installed by `startBackend` waits for process exit.  On a
non-cancelled exit with an error it marks the backend Failed, sleeps 2
seconds, and — when the state is still Failed — marks it Starting again
and respawns it unconditionally; a failed respawn leaves it Failed.  On a
cancelled or clean exit it marks the backend Stopped.  The Go `Backend`
struct has no restart counter, so nothing is counted or capped. -/

/-- One run of the exit-monitor goroutine.  `exitErr` is `cmd.Wait()`
returning an error, `cancelled` is `ctx.Err() != nil`, `respawnOk` is
whether the `startBackend` respawn call succeeds. -/
def onProcessExit (b : Backend) (exitErr cancelled respawnOk : Bool) : Backend :=
  if exitErr && !cancelled then
    if respawnOk then { b with state := .starting }
    else { b with state := .failed }
  else
    { b with state := .stopped }

/-- A crash (non-cancelled erroring exit) followed by a successful
respawn; iterated to follow a backend through repeated crashes. -/
def crashRespawn (b : Backend) : Backend :=
  onProcessExit b true false true

/-! ## Readiness probing (manager.go lines 369-408)

`waitForReady` polls `GET /health` on a 500ms ticker under a
`time.After(120 * time.Second)` timeout.  The poll outcomes form the
environment trace; the tick budget is the number of ticker firings that
fit in the 120s ceiling. -/

/-- Outcome of one `http.Get(healthURL)` poll. -/
inductive PollResult
  | connErr
  | status (code : Nat)
deriving DecidableEq, Repr

/-- Ticker interval in milliseconds (`500 * time.Millisecond`). -/
def readyTickMs : Nat := 500

/-- Startup ceiling in milliseconds (`120 * time.Second`). -/
def readyCeilingMs : Nat := 120000

/-- Number of ticker firings inside the ceiling. -/
def readyBudget : Nat := readyCeilingMs / readyTickMs

/-- Did one poll succeed?  The Go loop `continue`s on a transport error
and demands `resp.StatusCode == http.StatusOK`. -/
def pollIsOK : PollResult → Bool
  | .connErr => false
  | .status c => c = 200

/-- The `waitForReady` loop with `fuel` ticks left, polling `poll i` at
the i-th tick.  On each tick: a backend already Failed returns the
failed-to-start error; a 200 poll publishes Ready and succeeds; anything
else keeps waiting.  When the fuel (the 120s ceiling) runs out the waiter
gets the timeout error and — exactly as in the Go code — the backend
state is left untouched. -/
def waitForReadyAux (poll : Nat → PollResult) :
    Nat → Nat → Backend → Backend × Except String Unit
  | 0, _, b => (b, .error "timeout waiting for model to become ready")
  | fuel + 1, i, b =>
    if b.state = .failed then (b, .error "backend failed to start")
    else if pollIsOK (poll i) then ({ b with state := .ready }, .ok ())
    else waitForReadyAux poll fuel (i + 1) b

/-- `waitForReady` on a backend against a poll trace. -/
def waitForReadyModel (poll : Nat → PollResult) (b : Backend) :
    Backend × Except String Unit :=
  waitForReadyAux poll readyBudget 0 b

/-! ## Graceful shutdown (manager.go lines 665-683)

`Shutdown` iterates the groups; **per group** it computes a fresh
`deadline := time.Now().Add(30 * time.Second)` and, backend by backend,
sleeps one second at a time (releasing and re-taking `m.mu`) while
`ActiveReqs > 0` and the deadline has not passed; then it stops the
group.  Time is modelled in seconds, one sleep advancing the clock by
one; `ActiveReqs` of each backend is taken as constant during the drain
(no concurrent requests completing — the worst case for the bound). -/

/-- Per-group drain deadline in seconds (`30 * time.Second`). -/
def shutdownDrainSec : Nat := 30

/-- The inner drain wait of `Shutdown` for one group starting at clock
`t`: a backend with in-flight requests holds the loop until the group
deadline `t + 30`; idle backends are passed over instantly.  Returns the
clock after the group's drain loop. -/
def shutdownGroupWait (mb : ModelBackends) (t : Nat) : Nat :=
  mb.backends.foldl
    (fun clock b =>
      if b.activeReqs > 0 then max clock (t + shutdownDrainSec) else clock)
    t

/-- `Shutdown`: fold over the groups in iteration order, draining (with a
per-group 30s deadline) and then `stopModel`-ing each.  Returns the final
state and the clock when the last group was stopped. -/
def shutdownModel (s : ManagerState) (t : Nat) : ManagerState × Nat :=
  s.backends.foldl
    (fun acc p => (stopModel acc.1 p.1, shutdownGroupWait p.2 acc.2))
    (s, t)

/-! ## HTTP status mapping of the proxy (handler.go lines 116-265, 505-515) -/

/-- The 10MB read cap `maxBodySize` (handler.go line 125). -/
def maxBodySize : Nat := 10 * 1024 * 1024

/-- What `client.Do(proxyReq)` did.  A per-model deadline firing while
the request is in flight surfaces as an error from `Do`, just like a
connection failure; the Go code does not distinguish the two. -/
inductive Upstream
  | dialFailure
  | deadlineExceeded
  | okResponse (status : Nat)
deriving DecidableEq, Repr

/-- `http.StatusText` for the statuses the handler emits. -/
def statusText (status : Nat) : String :=
  if status = 400 then "Bad Request"
  else if status = 404 then "Not Found"
  else if status = 413 then "Request Entity Too Large"
  else if status = 500 then "Internal Server Error"
  else if status = 502 then "Bad Gateway"
  else if status = 503 then "Service Unavailable"
  else if status = 504 then "Gateway Timeout"
  else ""

/-- The JSON error body `{"error":{"message","type","code"}}` produced by
`writeError`. -/
structure ErrorBody where
  message : String
  type : String
  code : String
deriving DecidableEq, Repr

/-- `writeError` (handler.go lines 505-515): every error response carries
type `invalid_request_error` and the status text as code. -/
def writeError (status : Nat) (message : String) : ErrorBody :=
  { message := message, type := "invalid_request_error", code := statusText status }

/-- The decision sequence of `proxyToModel` (handler.go lines 116-265) on
one POST request, abstracted over the facts the code branches on:
`bodyLen` is the true request body length (the code reads at most
`maxBodySize` bytes and treats a full read as oversized), `jsonValid`
whether `json.Unmarshal` succeeds, `modelField` the extracted `model`
string (`""` when absent), `load` the result of `EnsureModel`, and `up`
the upstream call outcome.  Returns the client-visible status and the
error body, `none` on the passthrough path. -/
def proxyRespond (cfg : Config) (bodyLen : Nat) (jsonValid : Bool)
    (modelField : String) (load : Except String Unit) (up : Upstream) :
    Nat × Option ErrorBody :=
  if maxBodySize ≤ min bodyLen maxBodySize then
    (413, some (writeError 413 "request body too large"))
  else if ¬ jsonValid then
    (400, some (writeError 400 "invalid JSON in request body"))
  else if modelField = "" then
    (400, some (writeError 400 "model field is required"))
  else
    match resolveModel cfg.models modelField with
    | none => (404, some (writeError 404 ("model " ++ modelField ++ " not found")))
    | some _ =>
      match load with
      | .error e => (503, some (writeError 503 ("failed to load model: " ++ e)))
      | .ok _ =>
        match up with
        | .dialFailure => (502, some (writeError 502 "backend request failed"))
        | .deadlineExceeded => (502, some (writeError 502 "backend request failed"))
        | .okResponse st => (st, none)

/-! ## Concrete example data for the theorems -/

/-- A model list on which the claimed resolution precedence fails: "Y"
is an alias of the first model and the exact name of the second. -/
def c9Models : List ModelConfig :=
  [{ name := "X", aliases := ["Y"], instances := 1, timeoutSec := 0 },
   { name := "Y", aliases := [], instances := 1, timeoutSec := 0 }]

/-- A Ready backend holding one in-flight request that never completes. -/
def stuckBackend (nm : String) (p : Nat) : Backend :=
  { modelName := nm, port := p, state := .ready, lastUsed := 0,
    activeReqs := 1, instanceIdx := 0 }

/-- Two loaded model groups, each with one stuck in-flight request. -/
def twoStuckGroups : ManagerState :=
  { backends := [("A", { backends := [stuckBackend "A" 8081], rrIdx := 0 }),
                 ("B", { backends := [stuckBackend "B" 8082], rrIdx := 0 })],
    nextPort := 8083, maxLoaded := 2 }

/-- A single loaded model group with one stuck in-flight request. -/
def oneStuckGroup : ManagerState :=
  { backends := [("A", { backends := [stuckBackend "A" 8081], rrIdx := 0 })],
    nextPort := 8082, maxLoaded := 1 }

/-- A Ready backend with no in-flight requests. -/
def idleReadyBackend (nm : String) (p tUsed : Nat) : Backend :=
  { modelName := nm, port := p, state := .ready, lastUsed := tUsed,
    activeReqs := 0, instanceIdx := 0 }

/-- Config with one two-instance model and capacity 1 (queue disabled). -/
def c1Config : Config :=
  { models := [{ name := "A", aliases := [], instances := 2, timeoutSec := 0 }],
    queue := { enabled := false, maxSize := 0, timeoutSec := 0 },
    portRangeStart := 8081, maxLoadedModels := 1 }

/-- The empty manager state with capacity 1. -/
def c1Empty : ManagerState := { backends := [], nextPort := 8081, maxLoaded := 1 }

/-- Config with one single-instance model "C" and the queue enabled. -/
def c2Config : Config :=
  { models := [{ name := "C", aliases := [], instances := 1, timeoutSec := 0 }],
    queue := { enabled := true, maxSize := 4, timeoutSec := 300 },
    portRangeStart := 8081, maxLoadedModels := 1 }

/-- Two idle Ready groups over capacity: "B" (lastUsed 5) is older than
"A" (lastUsed 10). -/
def c2State : ManagerState :=
  { backends := [("A", { backends := [idleReadyBackend "A" 8081 10], rrIdx := 0 }),
                 ("B", { backends := [idleReadyBackend "B" 8082 5], rrIdx := 0 })],
    nextPort := 8083, maxLoaded := 1 }

/-- One Ready group at capacity whose only backend has an in-flight
request, so nothing is evictable. -/
def c2BusyState : ManagerState :=
  { backends := [("A", { backends := [stuckBackend "A" 8081], rrIdx := 0 })],
    nextPort := 8082, maxLoaded := 1 }

/-- Config with two single-instance models and capacity 1 (queue
disabled), for the eviction/port-recycling scenario. -/
def c3Config : Config :=
  { models := [{ name := "A", aliases := [], instances := 1, timeoutSec := 0 },
               { name := "B", aliases := [], instances := 1, timeoutSec := 0 }],
    queue := { enabled := false, maxSize := 0, timeoutSec := 0 },
    portRangeStart := 8081, maxLoadedModels := 1 }

/-- "A" loaded on port 8081 (idle, lastUsed 10), next port counter 8082. -/
def c3State : ManagerState :=
  { backends := [("A", { backends := [idleReadyBackend "A" 8081 10], rrIdx := 0 })],
    nextPort := 8082, maxLoaded := 1 }

/-- Queue-enabled config with max queue size 2. -/
def c5Config : Config :=
  { models := [],
    queue := { enabled := true, maxSize := 2, timeoutSec := 300 },
    portRangeStart := 8081, maxLoadedModels := 2 }

/-- The backend the cold-start path creates for "B" in the S3 scenario:
it gets the fresh counter port 8082, not A's released 8081. -/
def c3NewB : Backend :=
  { modelName := "B", port := 8082, state := .starting, lastUsed := 20,
    activeReqs := 0, instanceIdx := 0 }

/-- The manager state after evicting "A" and creating "B"'s backend. -/
def c3After : ManagerState :=
  { backends := [("B", { backends := [c3NewB], rrIdx := 0 })],
    nextPort := 8083, maxLoaded := 1 }

/-- A state whose group "B" has an idle Ready backend on port 8081. -/
def c5State : ManagerState :=
  { backends := [("B", { backends := [idleReadyBackend "B" 8081 0], rrIdx := 0 })],
    nextPort := 8082, maxLoaded := 2 }

/-! ## Theorems -/

/-! ### C10 — API-key masking -/

/-- C10: for every API key attached to a recorded request the stored
value is `maskAPIKey key`: the empty key maps to the empty string, a
non-empty key of at most 12 bytes maps to `"***"`, a longer key maps to
its first 8 bytes, `"..."`, and its last 4 bytes; consequently the mask
of a long key does not depend on its middle bytes, so no request record
contains them. -/
theorem maskAPIKey_correct (k₁ k₂ : List Nat)
    (h₁ : 12 < k₁.length) (h₂ : 12 < k₂.length)
    (hpre : k₁.take 8 = k₂.take 8)
    (hsuf : k₁.drop (k₁.length - 4) = k₂.drop (k₂.length - 4)) :
    maskAPIKey [] = []
      ∧ (∀ k : List Nat, k ≠ [] → k.length ≤ 12 → maskAPIKey k = [42, 42, 42])
      ∧ (∀ k : List Nat, 12 < k.length →
          maskAPIKey k = k.take 8 ++ [46, 46, 46] ++ k.drop (k.length - 4))
      ∧ maskAPIKey k₁ = maskAPIKey k₂ := by
  have hlong : ∀ k : List Nat, 12 < k.length →
      maskAPIKey k = k.take 8 ++ [46, 46, 46] ++ k.drop (k.length - 4) := by
    intro k hk
    have hne : k ≠ [] := by
      intro h
      rw [h] at hk
      simp at hk
    rw [maskAPIKey, if_neg hne, if_neg (by omega)]
  refine ⟨rfl, ?_, hlong, ?_⟩
  · intro k hne hlen
    rw [maskAPIKey, if_neg hne, if_pos hlen]
  · rw [hlong k₁ h₁, hlong k₂ h₂, hpre, hsuf]

/-- Witness for `maskAPIKey_correct`: two 13-byte keys agreeing outside
byte 8 get the same mask. -/
theorem maskAPIKey_correct_witness :
    maskAPIKey [1, 2, 3, 4, 5, 6, 7, 8, 99, 10, 11, 12, 13] =
      maskAPIKey [1, 2, 3, 4, 5, 6, 7, 8, 55, 10, 11, 12, 13] := by
  have h := maskAPIKey_correct
    [1, 2, 3, 4, 5, 6, 7, 8, 99, 10, 11, 12, 13]
    [1, 2, 3, 4, 5, 6, 7, 8, 55, 10, 11, 12, 13]
    (by decide) (by decide) (by decide) (by decide)
  exact h.2.2.2

/-! ### C9 — model-name resolution precedence

The handler resolves via `cfg.ResolveAlias` first (handler.go line 150),
which scans the model list once, matching each model's *name or aliases*
together.  An earlier model's alias therefore shadows a later model's
exact name — the claimed precedence "all exact names before any alias"
does not hold. -/

/-- C9 counterexample: requesting "Y", whose exact configured name
exists, resolves to "X" via the earlier model's alias — exact-name
matches are not tried before alias matches. -/
theorem resolveModel_alias_shadows_exact_name :
    resolveModel c9Models "Y" = some "X"
      ∧ "Y" ∈ c9Models.map (fun m => m.name)
      ∧ ("X" : String) ≠ "Y" := by
  refine ⟨by decide, by decide, by decide⟩

/-- `ResolveAlias` returns `none` when no model's name or alias equals
the request. -/
theorem ResolveAlias_eq_none (models : List ModelConfig) (req : String)
    (h : ∀ m' ∈ models, ¬ m'.name = req ∧ req ∉ m'.aliases) :
    ResolveAlias models req = none := by
  rw [ResolveAlias, List.findSome?_eq_none_iff]
  intro m' hm'
  rw [if_neg]
  rw [not_or]
  exact (h m' hm')

/-- `ResolveAlias` returns the first model whose name or alias matches. -/
theorem ResolveAlias_first (pre post : List ModelConfig) (m : ModelConfig)
    (req : String)
    (hpre : ∀ m' ∈ pre, ¬ m'.name = req ∧ req ∉ m'.aliases)
    (hm : m.name = req ∨ req ∈ m.aliases) :
    ResolveAlias (pre ++ m :: post) req = some m.name := by
  induction pre with
  | nil =>
    rw [List.nil_append, ResolveAlias, List.findSome?_cons, if_pos hm]
  | cons hd tl ih =>
    have hhd := hpre hd (by simp)
    rw [List.cons_append, ResolveAlias, List.findSome?_cons,
      if_neg (not_or.mpr hhd)]
    exact ih (fun m' hm' => hpre m' (by simp [hm']))

/-- When no model's name or alias matches, the combined resolution is
exactly the case-insensitive substring lookup. -/
theorem resolveModel_substring_fallback (models : List ModelConfig)
    (req : String)
    (h : ∀ m' ∈ models, ¬ m'.name = req ∧ req ∉ m'.aliases) :
    resolveModel models req =
      (models.find? (fun m' => containsLower m'.name req)).map
        (fun m' => m'.name) := by
  rw [resolveModel, ResolveAlias_eq_none models req h, resolveModelName]
  have h1 : models.find? (fun m => m.name = req) = none := by
    rw [List.find?_eq_none]
    intro x hx
    simp [(h x hx).1]
  have h2 : models.findSome?
      (fun m => if req ∈ m.aliases then some m.name else none) = none := by
    rw [List.findSome?_eq_none_iff]
    intro x hx
    rw [if_neg (h x hx).2]
  rw [h1, h2]
  cases hfind : models.find? (fun m' => containsLower m'.name req) <;> simp

/-- C9 amended: resolution scans the model list in order trying, for each
model, its exact name *and* its aliases together (so an earlier model's
alias takes precedence over a later model's exact name); only when no
name or alias anywhere matches does it fall back to a case-insensitive
substring match over names in order; when that also fails the request is
rejected with 404 and the model-not-found error body. -/
theorem resolveModel_precedence
    (req : String) (pre post models₂ : List ModelConfig) (m : ModelConfig)
    (cfg : Config)
    (hpre : ∀ m' ∈ pre, ¬ m'.name = req ∧ req ∉ m'.aliases)
    (hm : m.name = req ∨ req ∈ m.aliases)
    (hnone : ∀ m' ∈ models₂, ¬ m'.name = req ∧ req ∉ m'.aliases)
    (hcfg : cfg.models = models₂)
    (hreq : ¬ req = "")
    (hnosub : ∀ m' ∈ models₂, ¬ containsLower m'.name req = true) :
    resolveModel (pre ++ m :: post) req = some m.name
      ∧ resolveModel models₂ req =
          (models₂.find? (fun m' => containsLower m'.name req)).map
            (fun m' => m'.name)
      ∧ resolveModel models₂ req = none
      ∧ proxyRespond cfg 0 true req (.ok ()) (.okResponse 200) =
          (404, some (writeError 404 ("model " ++ req ++ " not found"))) := by
  have hfallback := resolveModel_substring_fallback models₂ req hnone
  have hsubnone : models₂.find? (fun m' => containsLower m'.name req) = none := by
    rw [List.find?_eq_none]
    exact hnosub
  have hres : resolveModel models₂ req = none := by
    rw [hfallback, hsubnone]
    rfl
  refine ⟨?_, hfallback, hres, ?_⟩
  · rw [resolveModel, ResolveAlias_first pre post m req hpre hm]
  · unfold proxyRespond
    rw [if_neg (by norm_num [maxBodySize]), if_neg (by simp),
      if_neg hreq, hcfg, hres]

/-- Witness for `resolveModel_precedence`: an alias match on the first
model wins, and an unresolvable name yields `none`. -/
theorem resolveModel_precedence_witness :
    resolveModel
        [{ name := "X", aliases := ["Y"], instances := 1, timeoutSec := 0 },
         { name := "Q", aliases := ["zz"], instances := 1, timeoutSec := 0 }]
        "zz" = some "Q"
      ∧ resolveModel
          [{ name := "A", aliases := [], instances := 1, timeoutSec := 0 }]
          "zz" = none := by
  have h := resolveModel_precedence "zz"
    [{ name := "X", aliases := ["Y"], instances := 1, timeoutSec := 0 }]
    []
    [{ name := "A", aliases := [], instances := 1, timeoutSec := 0 }]
    { name := "Q", aliases := ["zz"], instances := 1, timeoutSec := 0 }
    { models := [{ name := "A", aliases := [], instances := 1, timeoutSec := 0 }],
      queue := { enabled := false, maxSize := 0, timeoutSec := 0 },
      portRangeStart := 8081, maxLoadedModels := 2 }
    (by decide) (by decide) (by decide) rfl (by decide) (by decide)
  exact ⟨h.1, h.2.2.1⟩

/-! ### C6 — HTTP status mapping of the proxy -/

/-- C6 counterexample: when the non-streaming per-model deadline elapses,
`client.Do` returns an error and `proxyToModel` answers 502 (handler.go
lines 257-265) — not the claimed 504.  No 504 is produced anywhere in the
handler. -/
theorem proxy_deadline_maps_to_502 :
    proxyRespond
        { models := [{ name := "A", aliases := [], instances := 1, timeoutSec := 30 }],
          queue := { enabled := false, maxSize := 0, timeoutSec := 0 },
          portRangeStart := 8081, maxLoadedModels := 2 }
        10 true "A" (.ok ()) .deadlineExceeded
        = (502, some (writeError 502 "backend request failed"))
      ∧ (502 : Nat) ≠ 504 := by
  exact ⟨by decide, by decide⟩

/-- C6 amended: the proxy maps oversized bodies to 413, malformed JSON
and a missing model field to 400, an unresolved model name to 404, a
failed `EnsureModel` (capacity and queue exhausted, startup timeout) to
503, and a backend dial/transport failure to 502; an elapsed per-model
deadline surfaces as the same `client.Do` error and therefore also maps
to 502 (there is no 504 path); every error body carries
`type = "invalid_request_error"` and `code = http.StatusText(status)`. -/
theorem proxyRespond_status_mapping (cfg : Config) (bodyLen : Nat)
    (jsonValid : Bool) (modelField : String) (load : Except String Unit)
    (up : Upstream) (e nm : String) :
    (maxBodySize ≤ bodyLen →
      proxyRespond cfg bodyLen jsonValid modelField load up =
        (413, some (writeError 413 "request body too large")))
    ∧ (bodyLen < maxBodySize → jsonValid = false →
      proxyRespond cfg bodyLen jsonValid modelField load up =
        (400, some (writeError 400 "invalid JSON in request body")))
    ∧ (bodyLen < maxBodySize → jsonValid = true → modelField = "" →
      proxyRespond cfg bodyLen jsonValid modelField load up =
        (400, some (writeError 400 "model field is required")))
    ∧ (bodyLen < maxBodySize → jsonValid = true → ¬ modelField = "" →
      resolveModel cfg.models modelField = none →
      proxyRespond cfg bodyLen jsonValid modelField load up =
        (404, some (writeError 404 ("model " ++ modelField ++ " not found"))))
    ∧ (bodyLen < maxBodySize → jsonValid = true → ¬ modelField = "" →
      resolveModel cfg.models modelField = some nm → load = .error e →
      proxyRespond cfg bodyLen jsonValid modelField load up =
        (503, some (writeError 503 ("failed to load model: " ++ e))))
    ∧ (bodyLen < maxBodySize → jsonValid = true → ¬ modelField = "" →
      resolveModel cfg.models modelField = some nm → load = .ok () →
      up = .dialFailure →
      proxyRespond cfg bodyLen jsonValid modelField load up =
        (502, some (writeError 502 "backend request failed")))
    ∧ (bodyLen < maxBodySize → jsonValid = true → ¬ modelField = "" →
      resolveModel cfg.models modelField = some nm → load = .ok () →
      up = .deadlineExceeded →
      proxyRespond cfg bodyLen jsonValid modelField load up =
        (502, some (writeError 502 "backend request failed")))
    ∧ (∀ status body,
        proxyRespond cfg bodyLen jsonValid modelField load up = (status, some body) →
        body.type = "invalid_request_error" ∧ body.code = statusText status) := by
  refine ⟨?_, ?_, ?_, ?_, ?_, ?_, ?_, ?_⟩
  · intro h
    unfold proxyRespond
    rw [if_pos (by omega)]
  · intro h hj
    unfold proxyRespond
    rw [if_neg (by omega), if_pos (by simp [hj])]
  · intro h hj hmf
    unfold proxyRespond
    rw [if_neg (by omega), if_neg (by simp [hj]), if_pos hmf]
  · intro h hj hmf hres
    unfold proxyRespond
    rw [if_neg (by omega), if_neg (by simp [hj]), if_neg hmf, hres]
  · intro h hj hmf hres hload
    unfold proxyRespond
    rw [if_neg (by omega), if_neg (by simp [hj]), if_neg hmf, hres,
      hload]
  · intro h hj hmf hres hload hup
    unfold proxyRespond
    rw [if_neg (by omega), if_neg (by simp [hj]), if_neg hmf, hres,
      hload, hup]
  · intro h hj hmf hres hload hup
    unfold proxyRespond
    rw [if_neg (by omega), if_neg (by simp [hj]), if_neg hmf, hres,
      hload, hup]
  · intro status body h
    unfold proxyRespond at h
    split_ifs at h
    case _ =>
      simp only [Prod.mk.injEq, Option.some.injEq] at h
      obtain ⟨hst, hbd⟩ := h
      subst hst
      subst hbd
      exact ⟨rfl, rfl⟩
    case _ =>
      simp only [Prod.mk.injEq, Option.some.injEq] at h
      obtain ⟨hst, hbd⟩ := h
      subst hst
      subst hbd
      exact ⟨rfl, rfl⟩
    case _ =>
      cases hres : resolveModel cfg.models modelField with
      | none =>
        simp only [hres, Prod.mk.injEq, Option.some.injEq] at h
        obtain ⟨hst, hbd⟩ := h
        subst hst
        subst hbd
        exact ⟨rfl, rfl⟩
      | some nm' =>
        simp only [hres] at h
        cases load with
        | error e' =>
          simp only [Prod.mk.injEq, Option.some.injEq] at h
          obtain ⟨hst, hbd⟩ := h
          subst hst
          subst hbd
          exact ⟨rfl, rfl⟩
        | ok u =>
          cases u
          cases up with
          | dialFailure =>
            simp only [Prod.mk.injEq, Option.some.injEq] at h
            obtain ⟨hst, hbd⟩ := h
            subst hst
            subst hbd
            exact ⟨rfl, rfl⟩
          | deadlineExceeded =>
            simp only [Prod.mk.injEq, Option.some.injEq] at h
            obtain ⟨hst, hbd⟩ := h
            subst hst
            subst hbd
            exact ⟨rfl, rfl⟩
          | okResponse st =>
            simp only [Prod.mk.injEq] at h
            exact absurd h.2 (by simp)
    case _ =>
      simp only [Prod.mk.injEq, Option.some.injEq] at h
      obtain ⟨hst, hbd⟩ := h
      subst hst
      subst hbd
      exact ⟨rfl, rfl⟩

/-- Witness for `proxyRespond_status_mapping`: an oversized body is
rejected with 413. -/
theorem proxyRespond_status_mapping_witness :
    proxyRespond
        { models := [{ name := "A", aliases := [], instances := 1, timeoutSec := 0 }],
          queue := { enabled := false, maxSize := 0, timeoutSec := 0 },
          portRangeStart := 8081, maxLoadedModels := 2 }
        (2 * maxBodySize) true "A" (.ok ()) (.okResponse 200) =
      (413, some (writeError 413 "request body too large")) := by
  have h := proxyRespond_status_mapping
    { models := [{ name := "A", aliases := [], instances := 1, timeoutSec := 0 }],
      queue := { enabled := false, maxSize := 0, timeoutSec := 0 },
      portRangeStart := 8081, maxLoadedModels := 2 }
    (2 * maxBodySize) true "A" (.ok ()) (.okResponse 200) "" ""
  exact h.1 (by omega)

/-! ### C4 — bounded restart budget

The Go `Backend` struct (manager.go lines 30-39) has no restart counter,
and the exit-monitor goroutine (lines 330-364) respawns a crashed
backend unconditionally after the 2s delay: nothing is counted, capped,
or reset. -/

/-- C4 counterexample: after six consecutive crashes — more than the
claimed maximum of about 5 — the replica is again respawned into
Starting; it never transitions to Failed permanently. -/
theorem restart_budget_counterexample :
    (crashRespawn (crashRespawn (crashRespawn (crashRespawn (crashRespawn
        (crashRespawn
          { modelName := "A", port := 8081, state := .ready, lastUsed := 0,
            activeReqs := 0, instanceIdx := 0 })))))).state
        = BackendState.starting
      ∧ BackendState.starting ≠ BackendState.failed := by
  exact ⟨rfl, by decide⟩

/-- C4 amended: restarts are unbounded — every non-cancelled erroring
exit marks the backend Failed and then respawns it into Starting
unconditionally, no matter how many crashes preceded it (there is no
restart counter in the `Backend` struct, hence no cap and nothing to
reset on Ready); a failed respawn leaves it Failed; a clean or cancelled
exit transitions it to Stopped and does not respawn. -/
theorem restart_unbounded (b : Backend) (n : Nat) :
    (crashRespawn^[n + 1] b).state = .starting
      ∧ onProcessExit b true false false = { b with state := .failed }
      ∧ onProcessExit b false false false = { b with state := .stopped }
      ∧ onProcessExit b true true false = { b with state := .stopped } := by
  refine ⟨?_, rfl, rfl, rfl⟩
  rw [Function.iterate_succ_apply']
  rfl

/-- Witness for `restart_unbounded`: seven crashes still end in a
respawn. -/
theorem restart_unbounded_witness :
    (crashRespawn^[7]
        { modelName := "A", port := 8081, state := BackendState.ready,
          lastUsed := 0, activeReqs := 0, instanceIdx := 0 }).state
      = BackendState.starting := by
  have h := restart_unbounded
    { modelName := "A", port := 8081, state := BackendState.ready,
      lastUsed := 0, activeReqs := 0, instanceIdx := 0 } 6
  exact h.1

/-! ### C7 — readiness probe contract

`waitForReady` (manager.go lines 369-408) polls every 500ms under a 120s
ceiling and publishes Ready on the first 200; but when the ceiling
elapses it only returns the timeout error — the backend state is left
untouched (still Starting), not set to Failed as claimed. -/

set_option maxRecDepth 4000 in
/-- C7 counterexample: a backend whose health endpoint never answers —
after the 120s ceiling the waiter gets the startup-timeout error, yet the
backend is returned unchanged, still in Starting rather than the claimed
Failed. -/
theorem waitForReady_timeout_counterexample :
    waitForReadyModel (fun _ => PollResult.connErr)
        { modelName := "A", port := 8081, state := .starting, lastUsed := 0,
          activeReqs := 0, instanceIdx := 0 }
      = ({ modelName := "A", port := 8081, state := .starting, lastUsed := 0,
           activeReqs := 0, instanceIdx := 0 },
         .error "timeout waiting for model to become ready")
      ∧ BackendState.starting ≠ BackendState.failed := by
  exact ⟨rfl, by decide⟩

/-- If no poll ever succeeds, the wait loop exhausts its fuel and
returns the timeout error with the backend unchanged. -/
theorem waitForReadyAux_timeout (poll : Nat → PollResult) (b : Backend)
    (hb : ¬ b.state = .failed)
    (hfail : ∀ j, pollIsOK (poll j) = false) :
    ∀ fuel i, waitForReadyAux poll fuel i b =
      (b, .error "timeout waiting for model to become ready") := by
  intro fuel
  induction fuel with
  | zero => intro i; rfl
  | succ f ih =>
    intro i
    rw [waitForReadyAux, if_neg hb, hfail i, if_neg Bool.false_ne_true]
    exact ih (i + 1)

/-- If the first successful poll arrives at tick `k` within the remaining
fuel, the wait loop publishes Ready and succeeds. -/
theorem waitForReadyAux_success (poll : Nat → PollResult) (b : Backend)
    (hb : ¬ b.state = .failed) :
    ∀ (k fuel i : Nat), k < fuel →
      (∀ j, j < k → pollIsOK (poll (i + j)) = false) →
      pollIsOK (poll (i + k)) = true →
      waitForReadyAux poll fuel i b = ({ b with state := .ready }, .ok ()) := by
  intro k
  induction k with
  | zero =>
    intro fuel i hk _ h200
    cases fuel with
    | zero => omega
    | succ f =>
      rw [Nat.add_zero] at h200
      rw [waitForReadyAux, if_neg hb, h200, if_pos rfl]
  | succ k ih =>
    intro fuel i hk hbefore h200
    cases fuel with
    | zero => omega
    | succ f =>
      have hshift : ∀ j, j < k → pollIsOK (poll (i + 1 + j)) = false := by
        intro j hj
        have h := hbefore (j + 1) (by omega)
        have harith : i + (j + 1) = i + 1 + j := by omega
        rw [harith] at h
        exact h
      have h200' : pollIsOK (poll (i + 1 + k)) = true := by
        have harith : i + (k + 1) = i + 1 + k := by omega
        rw [harith] at h200
        exact h200
      have hfirst : pollIsOK (poll (i + 0)) = false := hbefore 0 (by omega)
      rw [Nat.add_zero] at hfirst
      rw [waitForReadyAux, if_neg hb, hfirst, if_neg Bool.false_ne_true]
      exact ih f (i + 1) (by omega) hshift h200'

/-- C7 amended: while a backend is Starting its health endpoint is polled
every 500ms under a 120-second ceiling (240 ticks); the first success
(HTTP 200) inside the ceiling transitions the backend to Ready; if the
ceiling elapses without a success the waiter receives the startup-timeout
error but the backend is returned unchanged — it stays Starting and is
*not* transitioned to Failed. -/
theorem waitForReady_spec (poll : Nat → PollResult) (b : Backend) (k : Nat)
    (hb : ¬ b.state = .failed) :
    ((∀ j, pollIsOK (poll j) = false) →
        waitForReadyModel poll b =
          (b, .error "timeout waiting for model to become ready"))
      ∧ (k < readyBudget → (∀ j, j < k → pollIsOK (poll j) = false) →
          pollIsOK (poll k) = true →
          waitForReadyModel poll b = ({ b with state := .ready }, .ok ()))
      ∧ readyTickMs = 500 ∧ readyCeilingMs = 120000 ∧ readyBudget = 240 := by
  refine ⟨?_, ?_, rfl, rfl, rfl⟩
  · intro hfail
    exact waitForReadyAux_timeout poll b hb hfail readyBudget 0
  · intro hk hbefore h200
    exact waitForReadyAux_success poll b hb k readyBudget 0 hk
      (by intro j hj; rw [Nat.zero_add]; exact hbefore j hj)
      (by rw [Nat.zero_add]; exact h200)

/-- Witness for `waitForReady_spec`: the first 200 at tick 3 publishes
Ready. -/
theorem waitForReady_spec_witness :
    waitForReadyModel
        (fun j => if j = 3 then PollResult.status 200 else PollResult.connErr)
        { modelName := "A", port := 8081, state := .starting, lastUsed := 0,
          activeReqs := 0, instanceIdx := 0 }
      = ({ modelName := "A", port := 8081, state := .ready, lastUsed := 0,
           activeReqs := 0, instanceIdx := 0 }, .ok ()) := by
  have h := waitForReady_spec
    (fun j => if j = 3 then PollResult.status 200 else PollResult.connErr)
    { modelName := "A", port := 8081, state := .starting, lastUsed := 0,
      activeReqs := 0, instanceIdx := 0 }
    3 (by decide)
  exact h.2.1 (by decide) (by decide) (by decide)

/-! ### C8 — graceful shutdown bound

`Shutdown` (manager.go lines 665-683) computes `deadline :=
time.Now().Add(30 * time.Second)` inside the loop over groups — a fresh
30s budget *per ModelGroup*, not 30s in total. -/

/-- C8 counterexample: two loaded models, each with one in-flight request
that never completes.  Shutdown drains the first group for 30s, then
computes a *new* 30s deadline for the second: the second group's process
is only stopped at t = 60s, violating the claimed 30s total bound. -/
theorem shutdown_total_bound_counterexample :
    (shutdownModel twoStuckGroups 0).2 = 60 ∧ ¬ (60 : Nat) ≤ 30 := by
  exact ⟨rfl, by decide⟩

/-- One group's drain loop finishes within its own 30s deadline. -/
theorem shutdownGroupWait_le (mb : ModelBackends) (t : Nat) :
    shutdownGroupWait mb t ≤ t + shutdownDrainSec := by
  rw [shutdownGroupWait]
  have general : ∀ (l : List Backend) (c : Nat), c ≤ t + shutdownDrainSec →
      l.foldl (fun clock b =>
        if b.activeReqs > 0 then max clock (t + shutdownDrainSec) else clock) c
        ≤ t + shutdownDrainSec := by
    intro l
    induction l with
    | nil => intro c hc; exact hc
    | cons hd tl ih =>
      intro c hc
      rw [List.foldl_cons]
      apply ih
      by_cases hact : hd.activeReqs > 0
      · rw [if_pos hact]
        omega
      · rw [if_neg hact]
        exact hc
  exact general mb.backends t (by omega)

/-- The clock after the whole shutdown fold is bounded by 30s per
visited group. -/
theorem shutdown_foldl_clock (l : List (String × ModelBackends)) :
    ∀ (st : ManagerState) (t : Nat),
      (l.foldl (fun acc p => (stopModel acc.1 p.1, shutdownGroupWait p.2 acc.2))
        (st, t)).2 ≤ t + shutdownDrainSec * l.length := by
  induction l with
  | nil => intro st t; simp
  | cons hd tl ih =>
    intro st t
    rw [List.foldl_cons]
    have h1 := shutdownGroupWait_le hd.2 t
    have h2 := ih (stopModel st hd.1) (shutdownGroupWait hd.2 t)
    calc (tl.foldl (fun acc p => (stopModel acc.1 p.1, shutdownGroupWait p.2 acc.2))
          (stopModel st hd.1, shutdownGroupWait hd.2 t)).2
        ≤ shutdownGroupWait hd.2 t + shutdownDrainSec * tl.length := h2
      _ ≤ t + shutdownDrainSec * (hd :: tl).length := by
          rw [List.length_cons]
          have : shutdownDrainSec * (tl.length + 1) =
            shutdownDrainSec * tl.length + shutdownDrainSec := by ring
          omega

/-- After the shutdown fold, exactly the groups whose names were not
visited remain. -/
theorem shutdown_foldl_backends (l : List (String × ModelBackends)) :
    ∀ (st : ManagerState) (t : Nat),
      ((l.foldl (fun acc p => (stopModel acc.1 p.1, shutdownGroupWait p.2 acc.2))
        (st, t)).1).backends =
        st.backends.filter (fun q => l.all (fun p => ¬ q.1 = p.1)) := by
  induction l with
  | nil =>
    intro st t
    simp
  | cons hd tl ih =>
    intro st t
    rw [List.foldl_cons]
    rw [ih (stopModel st hd.1) (shutdownGroupWait hd.2 t)]
    rw [stopModel]
    rw [List.filter_filter]
    apply List.filter_congr
    intro q _
    simp [List.all_cons, Bool.and_comm]

/-- C8 amended: Shutdown computes a fresh 30-second drain deadline for
each ModelGroup, so the total drain time is bounded by 30s × (number of
groups) — not 30s overall; after the loop every group has been stopped
and removed (all child processes cancelled), and a second Shutdown is a
no-op taking no time (idempotent). -/
theorem shutdownModel_spec (s : ManagerState) (t u : Nat) :
    (shutdownModel s t).2 ≤ t + shutdownDrainSec * s.backends.length
      ∧ (shutdownModel s t).1.backends = []
      ∧ shutdownModel (shutdownModel s t).1 u = ((shutdownModel s t).1, u)
      ∧ shutdownDrainSec = 30 := by
  have hempty : (shutdownModel s t).1.backends = [] := by
    rw [shutdownModel, shutdown_foldl_backends s.backends s t]
    rw [List.filter_eq_nil_iff]
    intro q hq
    simp only [List.all_eq_true, not_forall, Bool.not_eq_true]
    exact ⟨q, hq, by simp⟩
  refine ⟨?_, hempty, ?_, rfl⟩
  · rw [shutdownModel]
    exact shutdown_foldl_clock s.backends s t
  · rw [shutdownModel, hempty, List.foldl_nil]

/-- Witness for `shutdownModel_spec`: one stuck group is fully stopped
within its 30s deadline. -/
theorem shutdownModel_spec_witness :
    (shutdownModel oneStuckGroup 0).2 ≤ 30
      ∧ (shutdownModel oneStuckGroup 0).1.backends = [] := by
  have h := shutdownModel_spec oneStuckGroup 0 0
  refine ⟨?_, h.2.1⟩
  have h1 := h.1
  simpa [shutdownDrainSec, oneStuckGroup] using h1

/-! ### Shared lemmas about the LRU eviction scan -/

/-- A non-candidate leaves the running LRU pair unchanged. -/
theorem evictScan_skip (acc : Option (String × Nat)) (nb : String × Backend)
    (h : evictable nb.2 = false) : evictScan acc nb = acc := by
  simp [evictScan, h]

/-- A candidate replaces an empty running pair. -/
theorem evictScan_cand_none (nb : String × Backend)
    (h : evictable nb.2 = true) :
    evictScan none nb = some (nb.1, nb.2.lastUsed) := by
  simp [evictScan, h]

/-- A strictly older candidate replaces the running pair. -/
theorem evictScan_cand_lt (nb : String × Backend) (nm₀ : String) (t₀ : Nat)
    (h : evictable nb.2 = true) (hlt : nb.2.lastUsed < t₀) :
    evictScan (some (nm₀, t₀)) nb = some (nb.1, nb.2.lastUsed) := by
  simp [evictScan, h, hlt]

/-- A candidate no older than the running pair leaves it unchanged. -/
theorem evictScan_cand_ge (nb : String × Backend) (nm₀ : String) (t₀ : Nat)
    (h : evictable nb.2 = true) (hlt : ¬ nb.2.lastUsed < t₀) :
    evictScan (some (nm₀, t₀)) nb = some (nm₀, t₀) := by
  simp [evictScan, h, hlt]

/-- The Boolean candidate test unpacked. -/
theorem evictable_iff (b : Backend) :
    evictable b = true ↔ b.state = .ready ∧ ¬ b.activeReqs > 0 := by
  rw [evictable]
  simp

/-- Whatever the scan returns was either the seed or a candidate from the
list, carrying that candidate's `lastUsed`. -/
theorem foldl_evictScan_mem (l : List (String × Backend)) :
    ∀ (acc : Option (String × Nat)) (nm : String) (t : Nat),
      l.foldl evictScan acc = some (nm, t) →
      acc = some (nm, t)
        ∨ ∃ b, (nm, b) ∈ l ∧ evictable b = true ∧ b.lastUsed = t := by
  induction l with
  | nil =>
    intro acc nm t h
    exact Or.inl h
  | cons hd tl ih =>
    intro acc nm t h
    rw [List.foldl_cons] at h
    rcases ih (evictScan acc hd) nm t h with heq | ⟨b, hmem, hev, ht⟩
    · by_cases hc : evictable hd.2 = true
      · cases hacc : acc with
        | none =>
          rw [hacc, evictScan_cand_none hd hc] at heq
          simp only [Option.some.injEq, Prod.mk.injEq] at heq
          exact Or.inr ⟨hd.2, by rw [← heq.1]; exact List.mem_cons_self hd tl,
            hc, heq.2⟩
        | some p =>
          rcases p with ⟨nm₀, t₀⟩
          rw [hacc] at heq
          by_cases hlt : hd.2.lastUsed < t₀
          · rw [evictScan_cand_lt hd nm₀ t₀ hc hlt] at heq
            simp only [Option.some.injEq, Prod.mk.injEq] at heq
            exact Or.inr ⟨hd.2, by rw [← heq.1]; exact List.mem_cons_self hd tl,
              hc, heq.2⟩
          · rw [evictScan_cand_ge hd nm₀ t₀ hc hlt] at heq
            exact Or.inl (hacc ▸ heq)
      · rw [evictScan_skip acc hd (Bool.not_eq_true _ ▸ hc)] at heq
        exact Or.inl heq
    · exact Or.inr ⟨b, List.mem_cons_of_mem hd hmem, hev, ht⟩

/-- The scan result's time is minimal among all candidates in the list
and no later than the seed's time. -/
theorem foldl_evictScan_min (l : List (String × Backend)) :
    ∀ (acc : Option (String × Nat)) (nm : String) (t : Nat),
      l.foldl evictScan acc = some (nm, t) →
      (∀ nb ∈ l, evictable nb.2 = true → t ≤ nb.2.lastUsed)
        ∧ (∀ nm₀ t₀, acc = some (nm₀, t₀) → t ≤ t₀) := by
  induction l with
  | nil =>
    intro acc nm t h
    refine ⟨by intro nb hnb; exact absurd hnb (List.not_mem_nil nb), ?_⟩
    intro nm₀ t₀ hacc
    rw [List.foldl_nil] at h
    rw [hacc] at h
    simp only [Option.some.injEq, Prod.mk.injEq] at h
    omega
  | cons hd tl ih =>
    intro acc nm t h
    rw [List.foldl_cons] at h
    obtain ⟨ih1, ih2⟩ := ih (evictScan acc hd) nm t h
    constructor
    · intro nb hnb hev
      rcases List.mem_cons.mp hnb with heq | hmem
      · subst heq
        cases hacc : acc with
        | none =>
          exact ih2 nb.1 nb.2.lastUsed (by rw [hacc, evictScan_cand_none nb hev])
        | some p =>
          rcases p with ⟨nm₀, t₀⟩
          by_cases hlt : nb.2.lastUsed < t₀
          · exact ih2 nb.1 nb.2.lastUsed
              (by rw [hacc, evictScan_cand_lt nb nm₀ t₀ hev hlt])
          · have := ih2 nm₀ t₀
              (by rw [hacc, evictScan_cand_ge nb nm₀ t₀ hev hlt])
            omega
      · exact ih1 nb hmem hev
    · intro nm₀ t₀ hacc
      by_cases hc : evictable hd.2 = true
      · by_cases hlt : hd.2.lastUsed < t₀
        · have := ih2 hd.1 hd.2.lastUsed
            (by rw [hacc, evictScan_cand_lt hd nm₀ t₀ hc hlt])
          omega
        · exact ih2 nm₀ t₀ (by rw [hacc, evictScan_cand_ge hd nm₀ t₀ hc hlt])
      · exact ih2 nm₀ t₀
          (by rw [hacc, evictScan_skip (some (nm₀, t₀)) hd (Bool.not_eq_true _ ▸ hc)])

/-- With no candidate anywhere, the scan returns its seed. -/
theorem foldl_evictScan_none (l : List (String × Backend)) :
    ∀ acc, (∀ nb ∈ l, evictable nb.2 = false) →
      l.foldl evictScan acc = acc := by
  induction l with
  | nil => intro acc _; rfl
  | cons hd tl ih =>
    intro acc hno
    rw [List.foldl_cons, evictScan_skip acc hd (hno hd (List.mem_cons_self hd tl))]
    exact ih acc (fun nb hnb => hno nb (List.mem_cons_of_mem hd hnb))

/-- The LRU scan's victim is a Ready, idle backend of the returned group
whose `lastUsed` equals the returned time. -/
theorem findLRU_mem (s : ManagerState) (nm : String) (t : Nat)
    (h : findLRU s = some (nm, t)) :
    ∃ b, (nm, b) ∈ s.allNamedBackends ∧ evictable b = true ∧ b.lastUsed = t := by
  rcases foldl_evictScan_mem s.allNamedBackends none nm t h with heq | hgood
  · exact absurd heq (by simp)
  · exact hgood

/-- The LRU scan's time is minimal over every Ready, idle backend. -/
theorem findLRU_min (s : ManagerState) (nm : String) (t : Nat)
    (h : findLRU s = some (nm, t)) :
    ∀ nb ∈ s.allNamedBackends, evictable nb.2 = true → t ≤ nb.2.lastUsed :=
  (foldl_evictScan_min s.allNamedBackends none nm t h).1

/-- With no Ready idle backend anywhere, the LRU scan finds nothing. -/
theorem findLRU_none (s : ManagerState)
    (h : ∀ nb ∈ s.allNamedBackends, evictable nb.2 = false) :
    findLRU s = none :=
  foldl_evictScan_none s.allNamedBackends none h

/-! ### Shared lemmas about loaded counts and group removal -/

/-- Flat-mapping a filtered list yields a sublist of flat-mapping the
whole list. -/
theorem flatMap_filter_sublist {α β : Type} (p : α → Bool) (f : α → List β)
    (l : List α) : ((l.filter p).flatMap f).Sublist (l.flatMap f) := by
  induction l with
  | nil => simp
  | cons hd tl ih =>
    by_cases hp : p hd = true
    · rw [List.filter_cons, if_pos hp, List.flatMap_cons, List.flatMap_cons]
      exact ih.append_left (f hd)
    · rw [List.filter_cons, if_neg hp, List.flatMap_cons]
      exact ih.trans (List.sublist_append_right (f hd) (tl.flatMap f))

/-- A flattened-membership witness gives the group entry it came from. -/
theorem allNamed_unpack (s : ManagerState) (nm : String) (b : Backend)
    (h : (nm, b) ∈ s.allNamedBackends) :
    ∃ p ∈ s.backends, p.1 = nm ∧ b ∈ p.2.backends := by
  rw [ManagerState.allNamedBackends] at h
  rcases List.mem_flatMap.mp h with ⟨p, hp, hin⟩
  rcases List.mem_map.mp hin with ⟨b', hb', heq⟩
  injection heq with h1 h2
  subst h2
  exact ⟨p, hp, h1, hb'⟩

/-- Removing a group that contains a loaded backend drops the loaded
count by at least one. -/
theorem count_drop_group (nm : String) (b : Backend)
    (hcl : countsLoaded b = true) :
    ∀ l : List (String × ModelBackends),
      (∃ p ∈ l, p.1 = nm ∧ b ∈ p.2.backends) →
      (((l.filter (fun p => p.1 ≠ nm)).flatMap
          (fun p => p.2.backends)).filter countsLoaded).length + 1
        ≤ ((l.flatMap (fun p => p.2.backends)).filter countsLoaded).length := by
  intro l
  induction l with
  | nil =>
    rintro ⟨p, hp, _⟩
    exact absurd hp (List.not_mem_nil p)
  | cons hd tl ih =>
    rintro ⟨p, hp, hpnm, hpb⟩
    rcases List.mem_cons.mp hp with rfl | hmem
    · rw [List.filter_cons, if_neg (by simp [hpnm]), List.flatMap_cons,
        List.filter_append, List.length_append]
      have h1 : (((tl.filter (fun p => p.1 ≠ nm)).flatMap
          (fun p => p.2.backends)).filter countsLoaded).length
          ≤ ((tl.flatMap (fun p => p.2.backends)).filter countsLoaded).length :=
        List.Sublist.length_le
          (List.Sublist.filter countsLoaded
            (flatMap_filter_sublist (fun p => p.1 ≠ nm) (fun p => p.2.backends) tl))
      have h2 : b ∈ p.2.backends.filter countsLoaded :=
        List.mem_filter.mpr ⟨hpb, hcl⟩
      have h3 : 0 < (p.2.backends.filter countsLoaded).length :=
        List.length_pos.mpr (List.ne_nil_of_mem h2)
      omega
    · have hrec := ih ⟨p, hmem, hpnm, hpb⟩
      rw [List.flatMap_cons, List.filter_append, List.length_append,
        List.filter_cons]
      by_cases hn : hd.1 = nm
      · rw [if_neg (by simp [hn])]
        omega
      · rw [if_pos (by simp [hn]), List.flatMap_cons, List.filter_append,
          List.length_append]
        omega

/-! ### C1 — global capacity invariant

`evictIfNeeded` (manager.go 500-538) evicts at most one model group and
only checks `loaded < maxLoaded`; `EnsureModel` then creates
`mc.Instances` Starting backends (lines 240-252).  With more than one
instance the bound is overrun. -/

/-- C1 counterexample: an empty manager with `max_loaded = 1` starts
model "A" configured with 2 instances; `evictIfNeeded` passes (0 < 1)
and two Starting backends are created: the count is 2 > 1 right after
the claimed invariant-preserving step. -/
theorem capacity_two_instances_counterexample :
    ensureModelStart c1Config c1Empty "A" 0 =
      .started
        { backends := [("A",
            { backends :=
                [{ modelName := "A", port := 8081, state := .starting,
                   lastUsed := 0, activeReqs := 0, instanceIdx := 0 },
                 { modelName := "A", port := 8082, state := .starting,
                   lastUsed := 0, activeReqs := 0, instanceIdx := 1 }],
              rrIdx := 0 })],
          nextPort := 8083, maxLoaded := 1 }
        [{ modelName := "A", port := 8081, state := .starting,
           lastUsed := 0, activeReqs := 0, instanceIdx := 0 },
         { modelName := "A", port := 8082, state := .starting,
           lastUsed := 0, activeReqs := 0, instanceIdx := 1 }]
      ∧ loadedCount
          { backends := [("A",
              { backends :=
                  [{ modelName := "A", port := 8081, state := .starting,
                     lastUsed := 0, activeReqs := 0, instanceIdx := 0 },
                   { modelName := "A", port := 8082, state := .starting,
                     lastUsed := 0, activeReqs := 0, instanceIdx := 1 }],
                rrIdx := 0 })],
            nextPort := 8083, maxLoaded := 1 } = 2
      ∧ c1Empty.maxLoaded = 1 ∧ ¬ (2 : Nat) ≤ 1 := by
  refine ⟨by decide, by decide, rfl, by decide⟩

/-- Appending one group adds exactly its loaded backends to the count. -/
theorem loadedCount_append_one (l : List (String × ModelBackends))
    (name : String) (mb : ModelBackends) (np ml : Nat) :
    loadedCount { backends := l ++ [(name, mb)], nextPort := np, maxLoaded := ml }
      = loadedCount { backends := l, nextPort := np, maxLoaded := ml }
        + (mb.backends.filter countsLoaded).length := by
  show (((l ++ [(name, mb)]).flatMap (fun p => p.2.backends)).filter
    countsLoaded).length = _
  rw [List.flatMap_append, List.filter_append, List.length_append,
    List.flatMap_cons, List.flatMap_nil, List.append_nil]
  rfl

/-- C1 amended: the capacity bound survives the cold-start admission only
for single-instance models — if the model's `instances ≤ 1` and the
count before the call is within `max_loaded ≥ 1`, then after
`evictIfNeeded` plus creation of the Starting entry the count is still at
most `max_loaded` (and the bound itself is unchanged); with N > 1
instances the count after creation can exceed `max_loaded`, so the
claimed invariant does not hold in general. -/
theorem ensureModel_capacity_single_instance (cfg : Config) (s : ManagerState)
    (name : String) (now : Nat) (mc : ModelConfig) (s' : ManagerState)
    (created : List Backend)
    (hfind : cfg.models.find? (fun m => m.name = name) = some mc)
    (hinst : mc.instances ≤ 1)
    (hcap : loadedCount s ≤ s.maxLoaded)
    (hrun : ensureModelStart cfg s name now = .started s' created) :
    loadedCount s' ≤ s.maxLoaded ∧ s'.maxLoaded = s.maxLoaded := by
  simp only [ensureModelStart, hfind] at hrun
  cases hev : evictIfNeeded s with
  | error e =>
    simp only [hev] at hrun
    split_ifs at hrun
  | ok s₁ =>
    simp only [hev] at hrun
    have hk : (if mc.instances < 1 then 1 else mc.instances) = 1 := by
      split_ifs <;> omega
    rw [hk] at hrun
    injection hrun with h1 h2
    have hmaxeq : s₁.maxLoaded = s.maxLoaded ∧ loadedCount s₁ + 1 ≤ s.maxLoaded := by
      simp only [evictIfNeeded] at hev
      split_ifs at hev with hlt
      · injection hev with hs
        subst hs
        exact ⟨rfl, by omega⟩
      · cases hlru : findLRU s with
        | none =>
          simp only [hlru] at hev
          exact Except.noConfusion hev
        | some p =>
          rcases p with ⟨nm, t⟩
          simp only [hlru] at hev
          injection hev with hs
          subst hs
          obtain ⟨b, hmemN, hevb, _⟩ := findLRU_mem s nm t hlru
          have hcl : countsLoaded b = true := by
            have hready := ((evictable_iff b).mp hevb).1
            simp [countsLoaded, hready]
          obtain ⟨pgrp, hpg, hpgnm, hpgb⟩ := allNamed_unpack s nm b hmemN
          have hdrop := count_drop_group nm b hcl s.backends ⟨pgrp, hpg, hpgnm, hpgb⟩
          refine ⟨rfl, ?_⟩
          have hstop : loadedCount (stopModel s nm) + 1 ≤ loadedCount s := hdrop
          omega
    obtain ⟨hm1, hm2⟩ := hmaxeq
    constructor
    · rw [← h1, loadedCount_append_one]
      show loadedCount s₁ + 1 ≤ s.maxLoaded
      omega
    · rw [← h1]
      exact hm1

/-- Witness for `ensureModel_capacity_single_instance`: starting the
single-instance model "A" in an empty manager stays within capacity. -/
theorem ensureModel_capacity_single_instance_witness :
    loadedCount
      { backends := [("A",
          { backends := [{ modelName := "A", port := 8081, state := .starting, lastUsed := 0, activeReqs := 0, instanceIdx := 0 }],
            rrIdx := 0 })],
        nextPort := 8082, maxLoaded := 1 } ≤ c1Empty.maxLoaded := by
  have h := ensureModel_capacity_single_instance c3Config c1Empty "A" 0
    { name := "A", aliases := [], instances := 1, timeoutSec := 0 }
    { backends := [("A",
        { backends := [{ modelName := "A", port := 8081, state := .starting, lastUsed := 0, activeReqs := 0, instanceIdx := 0 }],
          rrIdx := 0 })],
      nextPort := 8082, maxLoaded := 1 }
    [{ modelName := "A", port := 8081, state := .starting, lastUsed := 0, activeReqs := 0, instanceIdx := 0 }]
    (by decide) (by decide) (by decide) (by decide)
  exact h.1

/-! ### C2 — LRU eviction victim selection and queue fallthrough -/

/-- C2: when an acquire is at or over capacity, the eviction scan's
victim `(nm, t)` names a group holding a Ready backend with no in-flight
requests whose `last_used` equals `t`, and `t` is minimal over every
Ready, idle backend; `evictIfNeeded` then stops exactly that group.  If
no Ready backend with zero in-flight requests exists, `evictIfNeeded`
fails with the no-evictable error and the cold-start path of
`EnsureModel` falls through to queueing (queue enabled), evicting
nothing and leaving the state unchanged. -/
theorem evict_lru_and_queue_fallthrough (cfg : Config) (s : ManagerState)
    (name : String) (now : Nat) (nm : String) (t : Nat) (mc : ModelConfig)
    (hfind : cfg.models.find? (fun m => m.name = name) = some mc)
    (hq : cfg.queue.enabled = true)
    (hcap : ¬ loadedCount s < s.maxLoaded) :
    (findLRU s = some (nm, t) →
        (∃ b, (nm, b) ∈ s.allNamedBackends ∧ b.state = .ready
            ∧ ¬ b.activeReqs > 0 ∧ b.lastUsed = t)
        ∧ (∀ nb ∈ s.allNamedBackends, nb.2.state = .ready →
            ¬ nb.2.activeReqs > 0 → t ≤ nb.2.lastUsed)
        ∧ evictIfNeeded s = .ok (stopModel s nm))
    ∧ ((∀ nb ∈ s.allNamedBackends, nb.2.state = .ready → nb.2.activeReqs > 0) →
        evictIfNeeded s = .error "no evictable models found (all busy or starting)"
        ∧ ensureModelStart cfg s name now = .enqueuedOutcome s) := by
  constructor
  · intro hlru
    obtain ⟨b, hmem, hevb, ht⟩ := findLRU_mem s nm t hlru
    have hmin := findLRU_min s nm t hlru
    refine ⟨⟨b, hmem, ((evictable_iff b).mp hevb).1,
      ((evictable_iff b).mp hevb).2, ht⟩, ?_, ?_⟩
    · intro nb hnb hready hidle
      exact hmin nb hnb ((evictable_iff nb.2).mpr ⟨hready, hidle⟩)
    · simp only [evictIfNeeded, if_neg hcap, hlru]
  · intro hbusy
    have hnone : findLRU s = none := by
      apply findLRU_none
      intro nb hnb
      by_cases hready : nb.2.state = .ready
      · have hact := hbusy nb hnb hready
        simp [evictable, hready, hact]
      · simp [evictable, hready]
    have hevict : evictIfNeeded s =
        .error "no evictable models found (all busy or starting)" := by
      simp only [evictIfNeeded, if_neg hcap, hnone]
    refine ⟨hevict, ?_⟩
    simp [ensureModelStart, hfind, hevict, hq]

/-- Witness for `evict_lru_and_queue_fallthrough`: with "A" (lastUsed 10)
and "B" (lastUsed 5) both idle over capacity, the LRU group "B" is the
one stopped; with only a busy "A" loaded, the acquire is queued. -/
theorem evict_lru_and_queue_fallthrough_witness :
    evictIfNeeded c2State = .ok (stopModel c2State "B")
      ∧ ensureModelStart c2Config c2BusyState "C" 0 =
          .enqueuedOutcome c2BusyState := by
  have h1 := evict_lru_and_queue_fallthrough c2Config c2State "C" 0 "B" 5
    { name := "C", aliases := [], instances := 1, timeoutSec := 0 }
    (by decide) (by decide) (by decide)
  have h2 := evict_lru_and_queue_fallthrough c2Config c2BusyState "C" 0 "" 0
    { name := "C", aliases := [], instances := 1, timeoutSec := 0 }
    (by decide) (by decide) (by decide)
  exact ⟨(h1.1 (by decide)).2.2, (h2.2 (by decide)).2⟩

/-! ### C3 — port allocation and recycling

`EnsureModel` allocates with `port := m.nextPort; m.nextPort++` (manager.go
241-242) and `stopModel` (540-557) deletes the group without recording
its ports anywhere: the code has **no** freelist and never recycles a
port. -/

/-- C3 counterexample: the scenario the claim implies (spec S3) — "A"
holds port 8081 and is evicted to start "B"; a freelist-first allocator
would hand "B" the released 8081, but the code hands it the fresh
counter value 8082 and the released port is never recorded. -/
theorem port_not_recycled_counterexample :
    ensureModelStart c3Config c3State "B" 20 = .started c3After [c3NewB]
      ∧ (idleReadyBackend "A" 8081 10).port = 8081
      ∧ c3NewB.port = 8082
      ∧ (8082 : Nat) ≠ 8081 := by
  refine ⟨by decide, rfl, rfl, by decide⟩

/-- Ports of the backends created by the cold-start path, as a list. -/
theorem created_ports_range (name : String) (now np k : Nat) :
    ((List.range k).map (fun i =>
        ({ modelName := name, port := np + i, state := .starting,
           lastUsed := now, activeReqs := 0, instanceIdx := i : Backend }))).map
      (fun b => b.port) = (List.range k).map (fun i => np + i) := by
  rw [List.map_map]
  rfl

/-- C3 amended: there is no freelist — allocation always hands out the
monotonically incremented counter (initialized from `port_range_start`),
`stopModel` returns nothing to any allocator and the counter never moves
backwards, so a destroyed group's ports are simply never reused; in
consequence every port of a live backend is unique and a port is never
handed out while any live backend still holds it (all new ports are
at least the counter, all existing ports are below it). -/
theorem port_allocation_fresh (cfg : Config) (s : ManagerState)
    (name : String) (now : Nat) (s' : ManagerState) (created : List Backend)
    (hports : ∀ b ∈ s.allBackends, b.port < s.nextPort)
    (hnodup : (s.allBackends.map (fun b => b.port)).Nodup)
    (hrun : ensureModelStart cfg s name now = .started s' created) :
    s.nextPort ≤ s'.nextPort
      ∧ (∀ b ∈ created, s.nextPort ≤ b.port ∧ b.port < s'.nextPort)
      ∧ (∀ b ∈ s'.allBackends, b.port < s'.nextPort)
      ∧ (s'.allBackends.map (fun b => b.port)).Nodup
      ∧ (∀ nm, (stopModel s nm).nextPort = s.nextPort) := by
  simp only [ensureModelStart] at hrun
  cases hfind : cfg.models.find? (fun m => m.name = name) with
  | none =>
    simp only [hfind] at hrun
    exact EnsureOutcome.noConfusion hrun
  | some mc =>
    simp only [hfind] at hrun
    cases hev : evictIfNeeded s with
    | error e =>
      simp only [hev] at hrun
      split_ifs at hrun
    | ok s₁ =>
      simp only [hev] at hrun
      injection hrun with h1 h2
      -- facts about the intermediate state s₁
      have hsub : s₁.allBackends.Sublist s.allBackends ∧ s₁.nextPort = s.nextPort := by
        simp only [evictIfNeeded] at hev
        split_ifs at hev with hlt
        · injection hev with hs
          subst hs
          exact ⟨List.Sublist.refl _, rfl⟩
        · cases hlru : findLRU s with
          | none =>
            simp only [hlru] at hev
            exact Except.noConfusion hev
          | some p =>
            rcases p with ⟨nm, t⟩
            simp only [hlru] at hev
            injection hev with hs
            subst hs
            constructor
            · exact flatMap_filter_sublist (fun p => p.1 ≠ nm)
                (fun p => p.2.backends) s.backends
            · rfl
      obtain ⟨hsb, hsp⟩ := hsub
      have hold : ∀ b ∈ s₁.allBackends, b.port < s.nextPort := by
        intro b hb
        exact hports b (hsb.mem hb)
      have holdnodup : (s₁.allBackends.map (fun b => b.port)).Nodup :=
        (hsb.map (fun b => b.port)).nodup hnodup
      set k := (if mc.instances < 1 then 1 else mc.instances) with hkdef
      have hkpos : 0 < k := by
        rw [hkdef]
        split_ifs <;> omega
      -- the new state's backends are the old plus the created ones
      have hall : s'.allBackends = s₁.allBackends ++ created := by
        rw [← h1, ← h2]
        show ((s₁.backends ++ _).flatMap (fun p => p.2.backends)) = _
        rw [List.flatMap_append, List.flatMap_cons, List.flatMap_nil,
          List.append_nil]
        rfl
      have hnp : s'.nextPort = s.nextPort + k := by
        rw [← h1, hsp]
      have hcreated : ∀ b ∈ created, s.nextPort ≤ b.port ∧ b.port < s.nextPort + k := by
        intro b hb
        rw [← h2] at hb
        rcases List.mem_map.mp hb with ⟨i, hi, heq⟩
        have hik := List.mem_range.mp hi
        rw [← heq]
        show s.nextPort ≤ s₁.nextPort + i ∧ s₁.nextPort + i < s.nextPort + k
        rw [hsp]
        omega
      have hcreatedports : created.map (fun b => b.port) =
          (List.range k).map (fun i => s₁.nextPort + i) := by
        rw [← h2]
        exact created_ports_range name now s₁.nextPort k
      refine ⟨by omega, ?_, ?_, ?_, fun nm => rfl⟩
      · intro b hb
        have := hcreated b hb
        omega
      · intro b hb
        rw [hall] at hb
        rcases List.mem_append.mp hb with hmem | hmem
        · have := hold b hmem
          omega
        · have := hcreated b hmem
          omega
      · rw [hall, List.map_append]
        apply List.Nodup.append holdnodup
        · rw [hcreatedports]
          apply List.Nodup.map
          · intro a b hab
            simp at hab
            omega
          · exact List.nodup_range k
        · intro x hx hx'
          have hx1 : x < s.nextPort := by
            rcases List.mem_map.mp hx with ⟨b, hb, heq⟩
            rw [← heq]
            exact hold b hb
          rw [hcreatedports] at hx'
          rcases List.mem_map.mp hx' with ⟨i, hi, heq⟩
          rw [hsp] at heq
          omega

/-- Witness for `port_allocation_fresh`: evicting "A" (port 8081) and
starting "B" hands out the fresh port 8082 and keeps ports unique. -/
theorem port_allocation_fresh_witness :
    c3NewB.port < c3After.nextPort := by
  have h := port_allocation_fresh c3Config c3State "B" 20 c3After [c3NewB]
    (by decide) (by decide) (by decide)
  exact h.2.2.1 c3NewB (by decide)

/-! ### C5 — queue semantics -/

/-- Touching the first Ready backend commutes with looking it up. -/
theorem find?_touchFirstReady (l : List Backend) (now : Nat) :
    (touchFirstReady l now).find? (fun b => b.state = .ready)
      = (l.find? (fun b => b.state = .ready)).map
          (fun b => { b with lastUsed := now }) := by
  induction l with
  | nil => rfl
  | cons b rest ih =>
    by_cases hb : b.state = .ready
    · rw [touchFirstReady]
      rw [if_pos hb]
      rw [List.find?_cons_of_pos _ (by simpa using hb),
        List.find?_cons_of_pos _ (by simpa using hb)]
      rfl
    · rw [touchFirstReady]
      rw [if_neg hb]
      rw [List.find?_cons_of_neg _ (by simpa using hb),
        List.find?_cons_of_neg _ (by simpa using hb)]
      exact ih

/-- Finding the named entry commutes with the drain's per-entry touch
map. -/
theorem find?_mapTouch (name : String) (now : Nat) :
    ∀ l : List (String × ModelBackends),
      (l.map (fun p => if p.1 = name
          then (p.1, { p.2 with backends := touchFirstReady p.2.backends now })
          else p)).find? (fun p => p.1 = name)
        = (l.find? (fun p => p.1 = name)).map
            (fun p => (p.1, { p.2 with backends := touchFirstReady p.2.backends now })) := by
  intro l
  induction l with
  | nil => rfl
  | cons hd tl ih =>
    by_cases hn : hd.1 = name
    · rw [List.map_cons, if_pos hn,
        List.find?_cons_of_pos _ (by simpa using hn),
        List.find?_cons_of_pos _ (by simpa using hn)]
      rfl
    · rw [List.map_cons, if_neg hn,
        List.find?_cons_of_neg _ (by simpa using hn),
        List.find?_cons_of_neg _ (by simpa using hn)]
      exact ih

/-- Group lookup after the drain's `LastUsed` write. -/
theorem lookupGroup_touchGroup (s : ManagerState) (name : String) (now : Nat) :
    lookupGroup (touchGroup s name now) name
      = (lookupGroup s name).map
          (fun mb => { mb with backends := touchFirstReady mb.backends now }) := by
  show ((s.backends.map (fun p => if p.1 = name
      then (p.1, { p.2 with backends := touchFirstReady p.2.backends now })
      else p)).find? (fun p => p.1 = name)).map (fun p => p.2) = _
  rw [find?_mapTouch, lookupGroup]
  cases s.backends.find? (fun p => p.1 = name) with
  | none => rfl
  | some p => rfl

/-- The drain walk, characterised: with group `mb` of `name` holding a
first Ready backend `b`, every queued entry for `name` is delivered
`{ b with lastUsed := now }` in FIFO order and removed; every other entry
is kept in order. -/
theorem drainQueue_characterise (name : String) (now : Nat) :
    ∀ (q : List QueueEntry) (s : ManagerState) (mb : ModelBackends) (b : Backend),
      lookupGroup s name = some mb →
      firstReady mb = some b →
      ∃ s', drainQueue s q name now =
        (s', q.filter (fun x => ¬ x.modelName = name),
         (q.filter (fun x => x.modelName = name)).map
           (fun x => (x, { b with lastUsed := now }))) := by
  intro q
  induction q with
  | nil =>
    intro s mb b _ _
    exact ⟨s, rfl⟩
  | cons e rest ih =>
    intro s mb b hg hr
    by_cases he : e.modelName = name
    · have hg' : lookupGroup (touchGroup s name now) name =
          some { mb with backends := touchFirstReady mb.backends now } := by
        rw [lookupGroup_touchGroup, hg]
        rfl
      have hr' : firstReady { mb with backends := touchFirstReady mb.backends now }
          = some ({ b with lastUsed := now }) := by
        show (touchFirstReady mb.backends now).find? (fun b => b.state = .ready) = _
        rw [find?_touchFirstReady]
        rw [show mb.backends.find? (fun b => b.state = .ready) = some b from hr]
        rfl
      obtain ⟨s'', hrec⟩ := ih (touchGroup s name now)
        { mb with backends := touchFirstReady mb.backends now }
        ({ b with lastUsed := now }) hg' hr'
      refine ⟨s'', ?_⟩
      rw [drainQueue, if_pos he]
      simp only [hg, hr]
      rw [hrec]
      rw [List.filter_cons, List.filter_cons,
        if_neg (show ¬ (decide ¬ e.modelName = name) = true by simp [he]),
        if_pos (show (decide (e.modelName = name)) = true by simp [he]),
        List.map_cons]
    · obtain ⟨s'', hrec⟩ := ih s mb b hg hr
      refine ⟨s'', ?_⟩
      rw [drainQueue, if_neg he, hrec]
      rw [List.filter_cons, List.filter_cons,
        if_pos (show (decide ¬ e.modelName = name) = true by simp [he]),
        if_neg (show ¬ (decide (e.modelName = name)) = true by simp [he])]

/-- Complementary filters partition the queue. -/
theorem filter_partition_length (name : String) (q : List QueueEntry) :
    (q.filter (fun x => ¬ x.modelName = name)).length
      + (q.filter (fun x => x.modelName = name)).length = q.length := by
  induction q with
  | nil => rfl
  | cons e rest ih =>
    by_cases he : e.modelName = name
    · rw [List.filter_cons, List.filter_cons,
        if_neg (show ¬ (decide ¬ e.modelName = name) = true by simp [he]),
        if_pos (show (decide (e.modelName = name)) = true by simp [he])]
      simp only [List.length_cons]
      omega
    · rw [List.filter_cons, List.filter_cons,
        if_pos (show (decide ¬ e.modelName = name) = true by simp [he]),
        if_neg (show ¬ (decide (e.modelName = name)) = true by simp [he])]
      simp only [List.length_cons]
      omega

/-- C5: the queue is a bounded FIFO — enqueueing onto a queue already
holding `max_size` entries fails fast with the distinct queue-full error
(no mutation, no blocking), otherwise the entry is appended at the tail;
when a backend reaches Ready the drain hands every waiting entry for
that model the group's first Ready backend, in FIFO order, removing each
delivered entry from the queue in the same step; the remaining and the
delivered entries are complementary sublists of the original queue, so
no entry is both delivered and kept (double-delivery) and no matching
entry is left undelivered while a Ready backend existed (lost wakeup). -/
theorem queue_fifo_spec (cfg : Config) (q : List QueueEntry) (e : QueueEntry)
    (s : ManagerState) (name : String) (now : Nat) (mb : ModelBackends)
    (b : Backend)
    (henq : cfg.queue.enabled = true)
    (hg : lookupGroup s name = some mb)
    (hr : firstReady mb = some b) :
    (cfg.queue.maxSize ≤ q.length →
        enqueueStep cfg q e = .error ("request queue is full ("
          ++ toString q.length ++ "/" ++ toString cfg.queue.maxSize ++ ")"))
      ∧ (q.length < cfg.queue.maxSize →
        enqueueStep cfg q e = .ok (q ++ [e]))
      ∧ (∃ s', drainQueue s q name now =
          (s', q.filter (fun x => ¬ x.modelName = name),
           (q.filter (fun x => x.modelName = name)).map
             (fun x => (x, { b with lastUsed := now }))))
      ∧ (q.filter (fun x => ¬ x.modelName = name)).length
          + (q.filter (fun x => x.modelName = name)).length = q.length := by
  refine ⟨?_, ?_, drainQueue_characterise name now q s mb b hg hr,
    filter_partition_length name q⟩
  · intro hfull
    rw [enqueueStep, if_neg (by simp [henq]), if_pos hfull]
  · intro hroom
    rw [enqueueStep, if_neg (by simp [henq]), if_neg (by omega)]

/-- Witness for `queue_fifo_spec`: a full queue of two entries rejects a
third with the queue-full error, and draining two "B" waiters delivers
both the first Ready backend in order. -/
theorem queue_fifo_spec_witness :
    enqueueStep c5Config [⟨"B", 0⟩, ⟨"A", 1⟩] ⟨"B", 2⟩ =
        .error "request queue is full (2/2)"
      ∧ (∃ s', drainQueue c5State [⟨"B", 0⟩, ⟨"A", 1⟩] "B" 7 =
          (s', [⟨"A", 1⟩],
           [(⟨"B", 0⟩, { modelName := "B", port := 8081, state := .ready, lastUsed := 7, activeReqs := 0, instanceIdx := 0 })])) := by
  have h := queue_fifo_spec c5Config [⟨"B", 0⟩, ⟨"A", 1⟩] ⟨"B", 2⟩ c5State "B" 7
    { backends := [idleReadyBackend "B" 8081 0], rrIdx := 0 }
    (idleReadyBackend "B" 8081 0)
    rfl (by decide) (by decide)
  refine ⟨h.1 (by decide), ?_⟩
  obtain ⟨s', hs'⟩ := h.2.2.1
  refine ⟨s', ?_⟩
  rw [hs']
  rfl

end Gateway
